import Mathlib

/-!
Verification of the prism-gravity evaluation engine of harmonica
(`src/harmonica/_forward/prism.py`).

The engine is embedded shallowly over exact rationals:

* `Prism` and `Point` model one prism row and one observation point.
* The analytic kernels come from the external `choclo` library and are
  treated as trusted collaborators, so the embedding is parameterised by a
  `KernelSet` of ten abstract kernel functions; `FIELDS` is the registry
  dictionary of `prism.py` (lines 33-44).
* `_check_prisms`, `_discard_null_prisms`, `_check_singular_points`,
  `_any_singular_point_diagonal`, `_any_singular_point_non_diagonal`,
  `jit_prism_gravity_serial`, `jit_prism_gravity_parallel` and
  `prism_gravity` translate the functions of the same names.
* The edge predicates `is_point_on_easting_edge` etc. live in
  `choclo.prism._utils` (an external dependency, not in this repository);
  they are modelled from the spec, as documented on each definition.
* Python `warnings.warn` is modelled as a boolean in the output record;
  `raise ValueError` / the unknown-field error become an `Except` error.
  The progress-bar side channel (`progressbar`, `numba_progress`) is pure
  I/O with no effect on the numeric result and is omitted, as is the
  `dtype` argument (all arithmetic is exact here) and numpy broadcasting
  (coordinates are three equal-length sequences, given as a point list).
-/

namespace Harmonica

/-- One right-rectangular prism: the six boundaries
`west, east, south, north, bottom, top` (one row of the `prisms` array). -/
structure Prism where
  west : ℚ
  east : ℚ
  south : ℚ
  north : ℚ
  bottom : ℚ
  top : ℚ
  deriving DecidableEq, Repr

/-- One observation point `(easting, northing, upward)`. -/
structure Point where
  easting : ℚ
  northing : ℚ
  upward : ℚ
  deriving DecidableEq, Repr

/-- Type of an analytic kernel: takes easting, northing, upward of the
point, the prism boundaries and the density, returns the contribution.
The actual kernels (`choclo.prism.gravity_pot`, ...) are external trusted
collaborators, so computations are parameterised over them. -/
abbrev Kernel := ℚ → ℚ → ℚ → Prism → ℚ → ℚ

/-- The ten kernel functions imported from `choclo.prism`, kept abstract. -/
structure KernelSet where
  gravity_pot : Kernel
  gravity_e : Kernel
  gravity_n : Kernel
  gravity_u : Kernel
  gravity_ee : Kernel
  gravity_nn : Kernel
  gravity_uu : Kernel
  gravity_en : Kernel
  gravity_eu : Kernel
  gravity_nu : Kernel

/-- The `FIELDS` dictionary (prism.py lines 33-44): field tag to kernel. -/
def FIELDS (ks : KernelSet) (field : String) : Option Kernel :=
  if field = "potential" then some ks.gravity_pot
  else if field = "g_e" then some ks.gravity_e
  else if field = "g_n" then some ks.gravity_n
  else if field = "g_z" then some ks.gravity_u
  else if field = "g_ee" then some ks.gravity_ee
  else if field = "g_nn" then some ks.gravity_nn
  else if field = "g_zz" then some ks.gravity_uu
  else if field = "g_en" then some ks.gravity_en
  else if field = "g_ez" then some ks.gravity_eu
  else if field = "g_nz" then some ks.gravity_nu
  else none

/-- The ten registered field tags (the keys of `FIELDS`). -/
def registeredFields : List String :=
  ["potential", "g_e", "g_n", "g_z", "g_ee", "g_nn", "g_zz", "g_en",
   "g_ez", "g_nz"]

/-- `west > east` for one prism (the `bad_we` mask of `_check_prisms`). -/
def bad_we (p : Prism) : Bool := decide (p.east < p.west)

/-- `south > north` for one prism (the `bad_sn` mask of `_check_prisms`). -/
def bad_sn (p : Prism) : Bool := decide (p.north < p.south)

/-- `bottom > top` for one prism (the `bad_bt` mask of `_check_prisms`). -/
def bad_bt (p : Prism) : Bool := decide (p.top < p.bottom)

/-- Which of the three boundary-ordering constraints an error message of
`_check_prisms` reports. -/
inductive BoundaryKind where
  | westEast
  | southNorth
  | bottomTop
  deriving DecidableEq, Repr

/-- Abstraction of the `ValueError` message built by `_check_prisms`: the
constraint named in the message and the list of prisms enumerated in it. -/
structure GeometryError where
  kind : BoundaryKind
  offenders : List Prism
  deriving DecidableEq, Repr

/-- `_check_prisms` (prism.py lines 344-375).  The source computes the
three masks, then raises on `bad_we` first (listing `prisms[bad_we]`),
else on `bad_sn`, else on `bad_bt`.  `none` means no exception. -/
def _check_prisms (prisms : List Prism) : Option GeometryError :=
  let we := prisms.filter bad_we
  let sn := prisms.filter bad_sn
  let bt := prisms.filter bad_bt
  if we ≠ [] then some ⟨BoundaryKind.westEast, we⟩
  else if sn ≠ [] then some ⟨BoundaryKind.southNorth, sn⟩
  else if bt ≠ [] then some ⟨BoundaryKind.bottomTop, bt⟩
  else none

/-- A prism paired with its density is null when it has zero extent on
some axis or exactly zero density (the mask of `_discard_null_prisms`,
prism.py lines 404-408). -/
def is_null_prism (p : Prism) (d : ℚ) : Bool :=
  decide (p.west = p.east) || decide (p.south = p.north) ||
  decide (p.bottom = p.top) || decide (d = 0)

/-- `_discard_null_prisms` (prism.py lines 378-412): keep only the
non-null prisms together with their densities, preserving order. -/
def _discard_null_prisms (prisms : List Prism) (density : List ℚ) :
    List Prism × List ℚ :=
  let kept := (prisms.zip density).filter fun pd => ! is_null_prism pd.1 pd.2
  (kept.map Prod.fst, kept.map Prod.snd)

/-- Modelled from the spec: `is_point_on_easting_edge` from
`choclo.prism._utils` is an external dependency, not part of this
repository.  Per the spec (section 4.4) a point is on an edge running in
the easting direction when its easting lies between the west and east
bounds and its northing and upward coordinates sit on the corresponding
prism faces; edge endpoints (vertices) are included, since every prism
vertex is singular for every tensor component. -/
def is_point_on_easting_edge (e n u : ℚ) (p : Prism) : Bool :=
  decide (p.west ≤ e) && decide (e ≤ p.east) &&
  (decide (n = p.south) || decide (n = p.north)) &&
  (decide (u = p.bottom) || decide (u = p.top))

/-- Modelled from the spec: `is_point_on_northing_edge` from
`choclo.prism._utils` (external).  A point on an edge running in the
northing direction, endpoints included. -/
def is_point_on_northing_edge (e n u : ℚ) (p : Prism) : Bool :=
  (decide (e = p.west) || decide (e = p.east)) &&
  decide (p.south ≤ n) && decide (n ≤ p.north) &&
  (decide (u = p.bottom) || decide (u = p.top))

/-- Modelled from the spec: `is_point_on_upward_edge` from
`choclo.prism._utils` (external).  A point on an edge running in the
upward direction, endpoints included. -/
def is_point_on_upward_edge (e n u : ℚ) (p : Prism) : Bool :=
  (decide (e = p.west) || decide (e = p.east)) &&
  (decide (n = p.south) || decide (n = p.north)) &&
  decide (p.bottom ≤ u) && decide (u ≤ p.top)

/-- `_any_singular_point_diagonal` (prism.py lines 276-291): scan all
points against all prisms with the two edge checks of a diagonal tensor
component, short-circuiting on the first match. -/
def _any_singular_point_diagonal (points : List Point) (prisms : List Prism)
    (check_func1 check_func2 : ℚ → ℚ → ℚ → Prism → Bool) : Bool :=
  points.any fun pt => prisms.any fun pr =>
    check_func1 pt.easting pt.northing pt.upward pr ||
    check_func2 pt.easting pt.northing pt.upward pr

/-- `_any_singular_point_non_diagonal` (prism.py lines 294-305): same scan
with the single edge check of a non-diagonal tensor component. -/
def _any_singular_point_non_diagonal (points : List Point)
    (prisms : List Prism) (check_func : ℚ → ℚ → ℚ → Prism → Bool) : Bool :=
  points.any fun pt => prisms.any fun pr =>
    check_func pt.easting pt.northing pt.upward pr

/-- `_check_singular_points` (prism.py lines 214-273).  Returns whether
the `UserWarning` is emitted (`warnings.warn` is modelled as this boolean;
it never aborts the computation). -/
def _check_singular_points (points : List Point) (prisms : List Prism)
    (field : String) : Bool :=
  if field = "g_ee" then
    _any_singular_point_diagonal points prisms
      is_point_on_northing_edge is_point_on_upward_edge
  else if field = "g_nn" then
    _any_singular_point_diagonal points prisms
      is_point_on_easting_edge is_point_on_upward_edge
  else if field = "g_zz" then
    _any_singular_point_diagonal points prisms
      is_point_on_easting_edge is_point_on_northing_edge
  else if field = "g_en" then
    _any_singular_point_non_diagonal points prisms is_point_on_upward_edge
  else if field = "g_ez" then
    _any_singular_point_non_diagonal points prisms is_point_on_northing_edge
  else if field = "g_nz" then
    _any_singular_point_non_diagonal points prisms is_point_on_easting_edge
  else false

/-- The inner loop of `jit_prism_gravity` for a single observation point:
`out[l]` starts at `0` (the array comes from `np.zeros`) and accumulates
`kernel(easting[l], northing[l], upward[l], prisms[m, :], density[m])`
over the prisms in order (prism.py lines 445-448). -/
def pointSum (kernel : Kernel) (prisms : List Prism) (density : List ℚ)
    (pt : Point) : ℚ :=
  (prisms.zip density).foldl
    (fun acc pd => acc + kernel pt.easting pt.northing pt.upward pd.1 pd.2) 0

/-- The serial variant of `jit_prism_gravity` (prism.py line 455): the
outer loop over observation points runs sequentially, each completed
accumulator appended to the output in order. -/
def jit_prism_gravity_serial (points : List Point) (prisms : List Prism)
    (density : List ℚ) (kernel : Kernel) : List ℚ :=
  points.foldl (fun out pt => out ++ [pointSum kernel prisms density pt]) []

/-- The parallel variant of `jit_prism_gravity` (prism.py line 456): the
outer loop is a `prange`, every point's slice of the output computed
independently of the others. -/
def jit_prism_gravity_parallel (points : List Point) (prisms : List Prism)
    (density : List ℚ) (kernel : Kernel) : List ℚ :=
  points.map (pointSum kernel prisms density)

/-- The error conditions `prism_gravity` can raise before any numerical
work: unknown field tag (line 164), density-count mismatch (lines
175-178), invalid prism geometry (`_check_prisms`). -/
inductive PrismError where
  | unknownField (field : String)
  | densityMismatch (ndensity nprisms : ℕ)
  | invalidGeometry (err : GeometryError)
  deriving DecidableEq, Repr

/-- What `prism_gravity` hands back on success: whether the singular-point
`UserWarning` was emitted, and the result array. -/
structure GravityOutput where
  warning : Bool
  result : List ℚ
  deriving DecidableEq, Repr

/-- The sign flip and unit conversions of `prism_gravity` (prism.py lines
202-210), applied in source order: negate for `g_z`, `g_ez`, `g_nz`; then
scale `g_e`, `g_n`, `g_z` by 1e5 (SI to mGal); then scale the six tensor
components by 1e9 (SI to Eotvos). -/
def postprocess (field : String) (result : List ℚ) : List ℚ :=
  let r1 := if field = "g_z" ∨ field = "g_ez" ∨ field = "g_nz" then
    result.map (fun x => -x) else result
  let r2 := if field = "g_e" ∨ field = "g_n" ∨ field = "g_z" then
    r1.map (fun x => x * 100000) else r1
  if field = "g_ee" ∨ field = "g_nn" ∨ field = "g_zz" ∨ field = "g_en" ∨
      field = "g_ez" ∨ field = "g_nz" then
    r2.map (fun x => x * 1000000000) else r2

/-- `prism_gravity` (prism.py lines 53-211), the public entry point:
field-tag lookup, sanity checks (unless `disable_checks`), null-prism
filtering, serial or parallel accumulation, sign/unit normalisation. -/
def prism_gravity (ks : KernelSet) (points : List Point)
    (prisms : List Prism) (density : List ℚ) (field : String)
    (parallel : Bool) (disable_checks : Bool) :
    Except PrismError GravityOutput :=
  match FIELDS ks field with
  | none => Except.error (PrismError.unknownField field)
  | some kernel =>
    if !disable_checks ∧ density.length ≠ prisms.length then
      Except.error (PrismError.densityMismatch density.length prisms.length)
    else
      match (if disable_checks then none else _check_prisms prisms) with
      | some e => Except.error (PrismError.invalidGeometry e)
      | none =>
        let warning := if disable_checks then false
          else _check_singular_points points prisms field
        let fd := _discard_null_prisms prisms density
        let raw := if parallel then
            jit_prism_gravity_parallel points fd.1 fd.2 kernel
          else
            jit_prism_gravity_serial points fd.1 fd.2 kernel
        Except.ok ⟨warning, postprocess field raw⟩

/-- The contents of the `result` array right after `forward_func` returns
(prism.py line 198): the accumulated kernel sums over the filtered prism
collection, before the sign/unit block.  Empty when the field tag is not
registered (the source raises before allocating `result`). -/
def rawAccum (ks : KernelSet) (points : List Point) (prisms : List Prism)
    (density : List ℚ) (field : String) (parallel : Bool) : List ℚ :=
  match FIELDS ks field with
  | none => []
  | some kernel =>
    let fd := _discard_null_prisms prisms density
    if parallel then jit_prism_gravity_parallel points fd.1 fd.2 kernel
    else jit_prism_gravity_serial points fd.1 fd.2 kernel

/-- The sign rule as the spec states it: the raw sums for `g_z`, `g_ez`
and `g_nz` are negated, the other fields keep their sign. -/
def spec_sign (field : String) : ℚ :=
  if field = "g_z" ∨ field = "g_ez" ∨ field = "g_nz" then -1 else 1

/-- The unit rule as the spec states it: `g_e`, `g_n`, `g_z` are scaled
by 1e5, the six tensor components by 1e9, `potential` is unscaled. -/
def spec_unit (field : String) : ℚ :=
  if field = "g_e" ∨ field = "g_n" ∨ field = "g_z" then 100000
  else if field = "g_ee" ∨ field = "g_nn" ∨ field = "g_zz" ∨
      field = "g_en" ∨ field = "g_ez" ∨ field = "g_nz" then 1000000000
  else 1

/-- The six tensor field tags, for which the singularity scan runs. -/
def tensorFields : List String :=
  ["g_ee", "g_nn", "g_zz", "g_en", "g_ez", "g_nz"]

/-- A point coincides with one of the eight vertices of a prism. -/
def isVertex (pt : Point) (p : Prism) : Bool :=
  (decide (pt.easting = p.west) || decide (pt.easting = p.east)) &&
  (decide (pt.northing = p.south) || decide (pt.northing = p.north)) &&
  (decide (pt.upward = p.bottom) || decide (pt.upward = p.top))

/-- A point strictly inside the volume of a prism. -/
def strictlyInside (pt : Point) (p : Prism) : Bool :=
  decide (p.west < pt.easting) && decide (pt.easting < p.east) &&
  decide (p.south < pt.northing) && decide (pt.northing < p.north) &&
  decide (p.bottom < pt.upward) && decide (pt.upward < p.top)

/-- A concrete kernel set used to evaluate the development on closed
inputs (each kernel simply returns the density argument). -/
def trivKernels : KernelSet where
  gravity_pot := fun _ _ _ _ d => d
  gravity_e := fun _ _ _ _ d => d
  gravity_n := fun _ _ _ _ d => d
  gravity_u := fun _ _ _ _ d => d
  gravity_ee := fun _ _ _ _ d => d
  gravity_nn := fun _ _ _ _ d => d
  gravity_uu := fun _ _ _ _ d => d
  gravity_en := fun _ _ _ _ d => d
  gravity_eu := fun _ _ _ _ d => d
  gravity_nu := fun _ _ _ _ d => d

/-! ## General lemmas about the embedded functions -/

/-- Appending one completed accumulator at a time (the sequential outer
loop) produces the same list as mapping over the points. -/
theorem foldl_append_singleton_eq_map (f : Point → ℚ) (pts : List Point)
    (acc : List ℚ) :
    pts.foldl (fun out pt => out ++ [f pt]) acc = acc ++ pts.map f := by
  induction pts generalizing acc with
  | nil => simp
  | cons p ps ih => simp [ih]

/-- The serial and the parallel accumulation loops agree. -/
theorem jit_serial_eq_parallel (points : List Point) (prisms : List Prism)
    (density : List ℚ) (kernel : Kernel) :
    jit_prism_gravity_serial points prisms density kernel =
      jit_prism_gravity_parallel points prisms density kernel := by
  simp [jit_prism_gravity_serial, jit_prism_gravity_parallel,
    foldl_append_singleton_eq_map]

/-- `_check_prisms` succeeds exactly when no prism violates any of the
three boundary-ordering constraints. -/
theorem check_prisms_eq_none_iff (prisms : List Prism) :
    _check_prisms prisms = none ↔
      prisms.filter bad_we = [] ∧ prisms.filter bad_sn = [] ∧
      prisms.filter bad_bt = [] := by
  simp only [_check_prisms]
  split_ifs with h1 h2 h3 <;> simp_all

/-- Every registered field tag has a kernel in the registry. -/
theorem FIELDS_isSome_of_mem (ks : KernelSet) {field : String}
    (h : field ∈ registeredFields) : ∃ k, FIELDS ks field = some k := by
  fin_cases h <;> exact ⟨_, rfl⟩

/-- Evaluation shape of a `prism_gravity` call that passes the sanity
checks: the singular-point warning (when checks run), followed by the
post-processed accumulation over the filtered prisms. -/
theorem prism_gravity_ok_form (ks : KernelSet) (points : List Point)
    (prisms : List Prism) (density : List ℚ) (field : String)
    (parallel disable_checks : Bool) (kernel : Kernel)
    (hk : FIELDS ks field = some kernel)
    (hlen : density.length = prisms.length)
    (hgeo : _check_prisms prisms = none) :
    prism_gravity ks points prisms density field parallel disable_checks =
      Except.ok
        ⟨if disable_checks then false
          else _check_singular_points points prisms field,
         postprocess field (rawAccum ks points prisms density field parallel)⟩ := by
  unfold prism_gravity rawAccum
  rw [hk]
  cases disable_checks <;> cases parallel <;>
    simp [hlen, hgeo, jit_serial_eq_parallel]

/-- On every registered field tag, the source's post-processing block is
one application of the spec's sign rule followed by one application of
the spec's unit rule. -/
theorem postprocess_eq_spec_rules {field : String}
    (h : field ∈ registeredFields) (l : List ℚ) :
    postprocess field l =
      l.map fun x => spec_unit field * (spec_sign field * x) := by
  fin_cases h <;>
    simp [postprocess, spec_unit, spec_sign, List.map_map] <;>
    (intro a _; ring)

/-! ## Claims -/

/-- C3: for every input (same points, prisms, densities and field tag),
the serial accumulation path (`parallel = false`) and the parallel
accumulation path (`parallel = true`) of `prism_gravity` return identical
results — exact equality of the whole outcome, errors included, since
both paths perform the same ordered per-point sum. -/
theorem prism_gravity_serial_parallel_equal (ks : KernelSet)
    (points : List Point) (prisms : List Prism) (density : List ℚ)
    (field : String) (dc : Bool) :
    prism_gravity ks points prisms density field true dc =
      prism_gravity ks points prisms density field false dc := by
  unfold prism_gravity
  cases FIELDS ks field with
  | none => rfl
  | some kernel => simp [jit_serial_eq_parallel]

/-- C1: for every valid input and every registered field tag, the array
`prism_gravity` returns equals the raw accumulated kernel sums with the
sign rule applied exactly once and then the unit rule applied exactly
once: `g_z`, `g_ez`, `g_nz` are negated first, then `g_e`, `g_n`, `g_z`
scaled by 1e5, the six tensor fields by 1e9, and `potential` unscaled. -/
theorem prism_gravity_sign_unit_contract (ks : KernelSet)
    (points : List Point) (prisms : List Prism) (density : List ℚ)
    (field : String) (par dc : Bool)
    (hfield : field ∈ registeredFields)
    (hlen : density.length = prisms.length)
    (hgeo : _check_prisms prisms = none) :
    prism_gravity ks points prisms density field par dc =
      Except.ok
        ⟨if dc then false else _check_singular_points points prisms field,
         (rawAccum ks points prisms density field par).map
           fun x => spec_unit field * (spec_sign field * x)⟩ := by
  obtain ⟨kernel, hk⟩ := FIELDS_isSome_of_mem ks hfield
  rw [prism_gravity_ok_form ks points prisms density field par dc kernel hk
    hlen hgeo, postprocess_eq_spec_rules hfield]

/-- Witness for C1 at a concrete prism, point and the tag `g_z`. -/
theorem prism_gravity_sign_unit_contract_witness :
    "g_z" ∈ registeredFields ∧
    _check_prisms [⟨0, 1, 0, 1, 0, 1⟩] = none ∧
    prism_gravity trivKernels [⟨2, 3, 4⟩] [⟨0, 1, 0, 1, 0, 1⟩] [7] "g_z"
        true false =
      Except.ok
        ⟨if false then false
          else _check_singular_points [⟨2, 3, 4⟩] [⟨0, 1, 0, 1, 0, 1⟩] "g_z",
         (rawAccum trivKernels [⟨2, 3, 4⟩] [⟨0, 1, 0, 1, 0, 1⟩] [7] "g_z"
             true).map
           fun x => spec_unit "g_z" * (spec_sign "g_z" * x)⟩ :=
  ⟨by decide, by decide,
   prism_gravity_sign_unit_contract trivKernels [⟨2, 3, 4⟩]
     [⟨0, 1, 0, 1, 0, 1⟩] [7] "g_z" true false (by decide) rfl (by decide)⟩

/-- C7: for every field tag outside the ten registered ones,
`prism_gravity` fails with the unknown-field error for arbitrary
coordinate, prism and density data (even inconsistent data that would
fail the later checks) and for either value of `disable_checks` — the tag
is rejected before any array is read and before any numerical work. -/
theorem prism_gravity_unknown_field (ks : KernelSet) (points : List Point)
    (prisms : List Prism) (density : List ℚ) (par dc : Bool)
    (field : String) (h : field ∉ registeredFields) :
    prism_gravity ks points prisms density field par dc =
      Except.error (PrismError.unknownField field) := by
  have hF : FIELDS ks field = none := by
    simp only [registeredFields, List.mem_cons, List.not_mem_nil, or_false,
      not_or] at h
    obtain ⟨h1, h2, h3, h4, h5, h6, h7, h8, h9, h10⟩ := h
    simp [FIELDS, h1, h2, h3, h4, h5, h6, h7, h8, h9, h10]
  unfold prism_gravity
  rw [hF]

/-- Witness for C7 at the concrete unknown tag `"g_xx"`. -/
theorem prism_gravity_unknown_field_witness :
    "g_xx" ∉ registeredFields ∧
    prism_gravity trivKernels [⟨0, 0, 0⟩] [⟨0, 1, 0, 1, 0, 1⟩] [1] "g_xx"
        true false =
      Except.error (PrismError.unknownField "g_xx") :=
  ⟨by decide,
   prism_gravity_unknown_field trivKernels [⟨0, 0, 0⟩] [⟨0, 1, 0, 1, 0, 1⟩]
     [1] true false "g_xx" (by decide)⟩

/-- C6: when the filtered prism collection is empty (every prism was
null, or there were none), `prism_gravity` returns exactly zero at every
observation point, for every registered field tag and both loop
variants. -/
theorem prism_gravity_empty_prisms_zero (ks : KernelSet)
    (points : List Point) (prisms : List Prism) (density : List ℚ)
    (field : String) (par dc : Bool)
    (hfield : field ∈ registeredFields)
    (hlen : density.length = prisms.length)
    (hgeo : _check_prisms prisms = none)
    (hempty : (_discard_null_prisms prisms density).1 = []) :
    ∃ w, prism_gravity ks points prisms density field par dc =
      Except.ok ⟨w, List.replicate points.length 0⟩ := by
  obtain ⟨kernel, hk⟩ := FIELDS_isSome_of_mem ks hfield
  have hraw : rawAccum ks points prisms density field par =
      List.replicate points.length 0 := by
    unfold rawAccum
    rw [hk]
    have h0 : pointSum kernel [] (_discard_null_prisms prisms density).2 =
        fun _ => (0 : ℚ) := rfl
    cases par <;>
      simp [jit_prism_gravity_parallel, jit_prism_gravity_serial,
        foldl_append_singleton_eq_map, hempty, h0, List.map_const']
  have hpost : postprocess field (List.replicate points.length 0) =
      List.replicate points.length 0 := by
    simp only [postprocess]
    split_ifs <;> simp [List.map_replicate]
  refine ⟨if dc then false else _check_singular_points points prisms field,
    ?_⟩
  rw [prism_gravity_ok_form ks points prisms density field par dc kernel hk
    hlen hgeo, hraw, hpost]

/-- Witness for C6: a single zero-volume prism leaves a single zero. -/
theorem prism_gravity_empty_prisms_zero_witness :
    "g_z" ∈ registeredFields ∧
    _check_prisms [⟨0, 0, 0, 1, 0, 1⟩] = none ∧
    (_discard_null_prisms [⟨0, 0, 0, 1, 0, 1⟩] [5]).1 = [] ∧
    ∃ w, prism_gravity trivKernels [⟨0, 0, 0⟩] [⟨0, 0, 0, 1, 0, 1⟩] [5]
        "g_z" true false = Except.ok ⟨w, List.replicate 1 0⟩ :=
  ⟨by decide, by decide, by decide,
   prism_gravity_empty_prisms_zero trivKernels [⟨0, 0, 0⟩]
     [⟨0, 0, 0, 1, 0, 1⟩] [5] "g_z" true false (by decide) rfl (by decide)
     (by decide)⟩

/-- C2 counterexample: with the first prism violating west ≤ east and
the second violating south ≤ north, `prism_gravity` raises the
InvalidGeometry error naming only the west/east constraint and
enumerating only the first prism — the second offending prism is absent
from the message, so the error does not identify every offending prism
grouped by constraint type. -/
theorem invalid_geometry_message_cex :
    prism_gravity trivKernels [⟨0, 0, 0⟩]
        [⟨1, 0, 0, 1, 0, 1⟩, ⟨0, 1, 1, 0, 0, 1⟩] [1, 1] "potential" true
        false =
      Except.error (PrismError.invalidGeometry
        ⟨BoundaryKind.westEast, [⟨1, 0, 0, 1, 0, 1⟩]⟩) ∧
    bad_sn ⟨0, 1, 1, 0, 0, 1⟩ = true ∧
    (⟨0, 1, 1, 0, 0, 1⟩ : Prism) ∉ ([⟨1, 0, 0, 1, 0, 1⟩] : List Prism) :=
  ⟨rfl, by decide, by decide⟩

/-- C2 as amended: when checks run and some prism violates a boundary
constraint, `prism_gravity` fails with an InvalidGeometry error whose
message enumerates exactly the prisms violating the first violated
constraint type, taken in the fixed order west/east, south/north,
bottom/top; prisms violating only a later constraint type are not
mentioned. -/
theorem invalid_geometry_reports_first_constraint (ks : KernelSet)
    (points : List Point) (prisms : List Prism) (density : List ℚ)
    (field : String) (par : Bool) (kernel : Kernel) (e : GeometryError)
    (hk : FIELDS ks field = some kernel)
    (hlen : density.length = prisms.length)
    (herr : _check_prisms prisms = some e) :
    prism_gravity ks points prisms density field par false =
      Except.error (PrismError.invalidGeometry e) ∧
    ((e.kind = BoundaryKind.westEast ∧
        e.offenders = prisms.filter bad_we ∧ prisms.filter bad_we ≠ []) ∨
     (e.kind = BoundaryKind.southNorth ∧
        e.offenders = prisms.filter bad_sn ∧ prisms.filter bad_we = [] ∧
        prisms.filter bad_sn ≠ []) ∨
     (e.kind = BoundaryKind.bottomTop ∧
        e.offenders = prisms.filter bad_bt ∧ prisms.filter bad_we = [] ∧
        prisms.filter bad_sn = [] ∧ prisms.filter bad_bt ≠ [])) := by
  constructor
  · unfold prism_gravity
    rw [hk]
    simp [hlen, herr]
  · simp only [_check_prisms] at herr
    split_ifs at herr with h1 h2 h3
    · obtain rfl := Option.some.inj herr
      exact Or.inl ⟨rfl, rfl, h1⟩
    · obtain rfl := Option.some.inj herr
      exact Or.inr (Or.inl ⟨rfl, rfl, not_ne_iff.mp h1, h2⟩)
    · obtain rfl := Option.some.inj herr
      exact Or.inr (Or.inr ⟨rfl, rfl, not_ne_iff.mp h1, not_ne_iff.mp h2,
        h3⟩)

/-- Witness for C2's amended theorem on a concrete invalid prism. -/
theorem invalid_geometry_reports_first_constraint_witness :
    prism_gravity trivKernels [⟨0, 0, 0⟩] [⟨1, 0, 0, 1, 0, 1⟩] [3] "g_nn"
        true false =
      Except.error (PrismError.invalidGeometry
        ⟨BoundaryKind.westEast, [⟨1, 0, 0, 1, 0, 1⟩]⟩) :=
  (invalid_geometry_reports_first_constraint trivKernels [⟨0, 0, 0⟩]
    [⟨1, 0, 0, 1, 0, 1⟩] [3] "g_nn" true trivKernels.gravity_nn
    ⟨BoundaryKind.westEast, [⟨1, 0, 0, 1, 0, 1⟩]⟩ rfl rfl (by decide)).1

/-- Zipping the mapped components of a pair list recovers the list. -/
theorem zip_map_fst_snd {α β : Type} (l : List (α × β)) :
    (l.map Prod.fst).zip (l.map Prod.snd) = l := by
  induction l with
  | nil => rfl
  | cons a t ih => simp [ih]

/-- C9: null-prism filtering is unconditional.  With `disable_checks`
set, `prism_gravity` still succeeds (no check can fire) and its result is
the post-processing of the accumulation over the filtered prism
collection (`rawAccum` runs `_discard_null_prisms` first), and no
surviving (prism, density) pair is null — a null prism's boundaries are
never handed to a kernel under any flag setting. -/
theorem null_prism_filter_unconditional (ks : KernelSet)
    (points : List Point) (prisms : List Prism) (density : List ℚ)
    (field : String) (par : Bool) (kernel : Kernel)
    (hk : FIELDS ks field = some kernel) :
    prism_gravity ks points prisms density field par true =
      Except.ok ⟨false,
        postprocess field (rawAccum ks points prisms density field par)⟩ ∧
    ∀ pd ∈ (_discard_null_prisms prisms density).1.zip
        (_discard_null_prisms prisms density).2,
      is_null_prism pd.1 pd.2 = false := by
  constructor
  · unfold prism_gravity rawAccum
    rw [hk]
    cases par <;> simp
  · intro pd hpd
    simp only [_discard_null_prisms] at hpd
    rw [zip_map_fst_snd] at hpd
    simpa using (List.mem_filter.mp hpd).2

/-- Witness for C9: a zero-volume prism under `disable_checks`. -/
theorem null_prism_filter_unconditional_witness :
    prism_gravity trivKernels [⟨0, 0, 0⟩]
        [⟨0, 1, 0, 1, 0, 1⟩, ⟨2, 2, 0, 1, 0, 1⟩] [1, 5] "potential" true
        true =
      Except.ok ⟨false,
        postprocess "potential" (rawAccum trivKernels [⟨0, 0, 0⟩]
          [⟨0, 1, 0, 1, 0, 1⟩, ⟨2, 2, 0, 1, 0, 1⟩] [1, 5] "potential"
          true)⟩ ∧
    ∀ pd ∈ (_discard_null_prisms [⟨0, 1, 0, 1, 0, 1⟩, ⟨2, 2, 0, 1, 0, 1⟩]
        [1, 5]).1.zip
        (_discard_null_prisms [⟨0, 1, 0, 1, 0, 1⟩, ⟨2, 2, 0, 1, 0, 1⟩]
          [1, 5]).2,
      is_null_prism pd.1 pd.2 = false :=
  null_prism_filter_unconditional trivKernels [⟨0, 0, 0⟩]
    [⟨0, 1, 0, 1, 0, 1⟩, ⟨2, 2, 0, 1, 0, 1⟩] [1, 5] "potential" true
    trivKernels.gravity_pot rfl

/-- Appending a prism that satisfies the three boundary constraints
keeps `_check_prisms` silent. -/
theorem check_prisms_append_ok {prisms : List Prism} {p : Prism}
    (hgeo : _check_prisms prisms = none) (hwe : bad_we p = false)
    (hsn : bad_sn p = false) (hbt : bad_bt p = false) :
    _check_prisms (prisms ++ [p]) = none := by
  rw [check_prisms_eq_none_iff] at hgeo ⊢
  obtain ⟨h1, h2, h3⟩ := hgeo
  simp [List.filter_append, h1, h2, h3, hwe, hsn, hbt]

/-- Appending a null prism (and its density) does not change the output
of the null-prism filter. -/
theorem discard_append_null (prisms : List Prism) (density : List ℚ)
    (p : Prism) (d : ℚ) (hlen : density.length = prisms.length)
    (hnull : is_null_prism p d = true) :
    _discard_null_prisms (prisms ++ [p]) (density ++ [d]) =
      _discard_null_prisms prisms density := by
  simp only [_discard_null_prisms]
  rw [List.zip_append hlen.symm, List.filter_append]
  simp [hnull]

/-- C4: appending one additional prism with zero density or zero volume
(and a valid boundary ordering) to a valid collection leaves the result
array of `prism_gravity` unchanged, elementwise exactly, for every
registered field tag, loop variant and `disable_checks` value. -/
theorem prism_gravity_null_prism_invariance (ks : KernelSet)
    (points : List Point) (prisms : List Prism) (density : List ℚ)
    (field : String) (par dc : Bool) (p : Prism) (d : ℚ)
    (hfield : field ∈ registeredFields)
    (hlen : density.length = prisms.length)
    (hgeo : _check_prisms prisms = none)
    (hwe : bad_we p = false) (hsn : bad_sn p = false)
    (hbt : bad_bt p = false)
    (hnull : is_null_prism p d = true) :
    ∃ w₁ w₂ r,
      prism_gravity ks points (prisms ++ [p]) (density ++ [d]) field par
          dc = Except.ok ⟨w₁, r⟩ ∧
      prism_gravity ks points prisms density field par dc =
        Except.ok ⟨w₂, r⟩ := by
  obtain ⟨kernel, hk⟩ := FIELDS_isSome_of_mem ks hfield
  have hlen2 : (density ++ [d]).length = (prisms ++ [p]).length := by
    simp [hlen]
  have hgeo2 := check_prisms_append_ok hgeo hwe hsn hbt
  have hdisc := discard_append_null prisms density p d hlen hnull
  have hraw : rawAccum ks points (prisms ++ [p]) (density ++ [d]) field
      par = rawAccum ks points prisms density field par := by
    unfold rawAccum
    rw [hk, hdisc]
  refine ⟨if dc then false
      else _check_singular_points points (prisms ++ [p]) field,
    if dc then false else _check_singular_points points prisms field,
    postprocess field (rawAccum ks points prisms density field par),
    ?_, ?_⟩
  · rw [prism_gravity_ok_form ks points (prisms ++ [p]) (density ++ [d])
      field par dc kernel hk hlen2 hgeo2, hraw]
  · exact prism_gravity_ok_form ks points prisms density field par dc
      kernel hk hlen hgeo

/-- Witness for C4: appending a zero-volume prism to one live prism. -/
theorem prism_gravity_null_prism_invariance_witness :
    ∃ w₁ w₂ r,
      prism_gravity trivKernels [⟨10, 10, 10⟩]
          ([⟨0, 1, 0, 1, 0, 1⟩] ++ [⟨5, 5, 0, 1, 0, 1⟩]) ([2] ++ [9])
          "g_ee" false false = Except.ok ⟨w₁, r⟩ ∧
      prism_gravity trivKernels [⟨10, 10, 10⟩] [⟨0, 1, 0, 1, 0, 1⟩] [2]
          "g_ee" false false = Except.ok ⟨w₂, r⟩ :=
  prism_gravity_null_prism_invariance trivKernels [⟨10, 10, 10⟩]
    [⟨0, 1, 0, 1, 0, 1⟩] [2] "g_ee" false false ⟨5, 5, 0, 1, 0, 1⟩ 9
    (by decide) rfl (by decide) (by decide) (by decide) (by decide)
    (by decide)

/-- An accumulating fold of additions is the starting value plus the sum
of the mapped elements. -/
theorem foldl_add_eq_sum {α : Type} (f : α → ℚ) (l : List α) (c : ℚ) :
    l.foldl (fun acc x => acc + f x) c = c + (l.map f).sum := by
  induction l generalizing c with
  | nil => simp
  | cons a t ih => simp [ih, add_assoc]

/-- Mapping a pointwise sum of two functions is the elementwise sum of
the two mapped lists. -/
theorem map_add_zipWith (f g : Point → ℚ) (pts : List Point) :
    pts.map (fun pt => f pt + g pt) =
      List.zipWith (· + ·) (pts.map f) (pts.map g) := by
  induction pts with
  | nil => rfl
  | cons a t ih => simp only [List.map_cons, List.zipWith_cons_cons, ih]

/-- The per-point accumulator over the filtered two-prism collection
splits into the accumulators over the two filtered singletons. -/
theorem pointSum_discard_pair (kernel : Kernel) (p1 p2 : Prism)
    (d1 d2 : ℚ) (pt : Point) :
    pointSum kernel (_discard_null_prisms [p1, p2] [d1, d2]).1
        (_discard_null_prisms [p1, p2] [d1, d2]).2 pt =
      pointSum kernel (_discard_null_prisms [p1] [d1]).1
          (_discard_null_prisms [p1] [d1]).2 pt +
        pointSum kernel (_discard_null_prisms [p2] [d2]).1
          (_discard_null_prisms [p2] [d2]).2 pt := by
  simp only [_discard_null_prisms, pointSum]
  rw [zip_map_fst_snd, zip_map_fst_snd, zip_map_fst_snd]
  have hsplit : ([p1, p2].zip [d1, d2]) = [p1].zip [d1] ++ [p2].zip [d2] :=
    rfl
  rw [hsplit, List.filter_append, foldl_add_eq_sum, foldl_add_eq_sum,
    foldl_add_eq_sum, List.map_append, List.sum_append]
  ring

/-- For registered field tags, the post-processing block (a fixed linear
scaling) distributes over elementwise sums. -/
theorem postprocess_zipWith_add {field : String}
    (h : field ∈ registeredFields) (l1 l2 : List ℚ) :
    postprocess field (List.zipWith (· + ·) l1 l2) =
      List.zipWith (· + ·) (postprocess field l1) (postprocess field l2)
    := by
  rw [postprocess_eq_spec_rules h, postprocess_eq_spec_rules h,
    postprocess_eq_spec_rules h]
  induction l1 generalizing l2 with
  | nil => rfl
  | cons a t ih =>
    cases l2 with
    | nil => rfl
    | cons b t2 =>
      simp only [List.zipWith_cons_cons, List.map_cons, ih]
      congr 1
      ring

/-- C5: superposition.  For every point set, registered field tag and two
valid prisms with their densities, the field of the two-prism collection
equals, elementwise and exactly, the sum of the fields of the two
singleton collections. -/
theorem prism_gravity_superposition (ks : KernelSet)
    (points : List Point) (p1 p2 : Prism) (d1 d2 : ℚ) (field : String)
    (par dc : Bool)
    (hfield : field ∈ registeredFields)
    (h1we : bad_we p1 = false) (h1sn : bad_sn p1 = false)
    (h1bt : bad_bt p1 = false)
    (h2we : bad_we p2 = false) (h2sn : bad_sn p2 = false)
    (h2bt : bad_bt p2 = false) :
    ∃ w w₁ w₂ r r₁ r₂,
      prism_gravity ks points [p1, p2] [d1, d2] field par dc =
        Except.ok ⟨w, r⟩ ∧
      prism_gravity ks points [p1] [d1] field par dc =
        Except.ok ⟨w₁, r₁⟩ ∧
      prism_gravity ks points [p2] [d2] field par dc =
        Except.ok ⟨w₂, r₂⟩ ∧
      r = List.zipWith (· + ·) r₁ r₂ := by
  obtain ⟨kernel, hk⟩ := FIELDS_isSome_of_mem ks hfield
  have hg12 : _check_prisms [p1, p2] = none := by
    rw [check_prisms_eq_none_iff]
    refine ⟨?_, ?_, ?_⟩ <;>
      simp [List.filter_cons, h1we, h2we, h1sn, h2sn, h1bt, h2bt]
  have hg1 : _check_prisms [p1] = none := by
    rw [check_prisms_eq_none_iff]
    refine ⟨?_, ?_, ?_⟩ <;> simp [List.filter_cons, h1we, h1sn, h1bt]
  have hg2 : _check_prisms [p2] = none := by
    rw [check_prisms_eq_none_iff]
    refine ⟨?_, ?_, ?_⟩ <;> simp [List.filter_cons, h2we, h2sn, h2bt]
  have hfun : pointSum kernel (_discard_null_prisms [p1, p2]
        [d1, d2]).1 (_discard_null_prisms [p1, p2] [d1, d2]).2 =
      fun pt =>
        pointSum kernel (_discard_null_prisms [p1] [d1]).1
            (_discard_null_prisms [p1] [d1]).2 pt +
          pointSum kernel (_discard_null_prisms [p2] [d2]).1
            (_discard_null_prisms [p2] [d2]).2 pt :=
    funext (pointSum_discard_pair kernel p1 p2 d1 d2)
  have hraw : rawAccum ks points [p1, p2] [d1, d2] field par =
      List.zipWith (· + ·) (rawAccum ks points [p1] [d1] field par)
        (rawAccum ks points [p2] [d2] field par) := by
    cases par <;>
      simp [rawAccum, hk, jit_serial_eq_parallel,
        jit_prism_gravity_parallel, hfun]
  refine ⟨if dc then false
      else _check_singular_points points [p1, p2] field,
    if dc then false else _check_singular_points points [p1] field,
    if dc then false else _check_singular_points points [p2] field,
    postprocess field (rawAccum ks points [p1, p2] [d1, d2] field par),
    postprocess field (rawAccum ks points [p1] [d1] field par),
    postprocess field (rawAccum ks points [p2] [d2] field par),
    prism_gravity_ok_form ks points [p1, p2] [d1, d2] field par dc kernel
      hk rfl hg12,
    prism_gravity_ok_form ks points [p1] [d1] field par dc kernel hk rfl
      hg1,
    prism_gravity_ok_form ks points [p2] [d2] field par dc kernel hk rfl
      hg2,
    ?_⟩
  rw [hraw, postprocess_zipWith_add hfield]

/-- Witness for C5 on two concrete prisms and the tag `g_nz`. -/
theorem prism_gravity_superposition_witness :
    ∃ w w₁ w₂ r r₁ r₂,
      prism_gravity trivKernels [⟨0, 0, 20⟩] [⟨0, 1, 0, 1, 0, 1⟩,
          ⟨2, 3, 2, 3, 2, 3⟩] [4, -5] "g_nz" true false =
        Except.ok ⟨w, r⟩ ∧
      prism_gravity trivKernels [⟨0, 0, 20⟩] [⟨0, 1, 0, 1, 0, 1⟩] [4]
          "g_nz" true false = Except.ok ⟨w₁, r₁⟩ ∧
      prism_gravity trivKernels [⟨0, 0, 20⟩] [⟨2, 3, 2, 3, 2, 3⟩] [-5]
          "g_nz" true false = Except.ok ⟨w₂, r₂⟩ ∧
      r = List.zipWith (· + ·) r₁ r₂ :=
  prism_gravity_superposition trivKernels [⟨0, 0, 20⟩]
    ⟨0, 1, 0, 1, 0, 1⟩ ⟨2, 3, 2, 3, 2, 3⟩ 4 (-5) "g_nz" true false
    (by decide) (by decide) (by decide) (by decide) (by decide)
    (by decide) (by decide)

/-- A prism vertex lies on an easting-parallel edge (endpoints included)
whenever the west ≤ east constraint holds. -/
theorem vertex_on_easting_edge {pt : Point} {pr : Prism}
    (hv : isVertex pt pr = true) (hwe : bad_we pr = false) :
    is_point_on_easting_edge pt.easting pt.northing pt.upward pr =
      true := by
  simp only [isVertex, Bool.and_eq_true, Bool.or_eq_true,
    decide_eq_true_eq] at hv
  obtain ⟨⟨he, hn⟩, hu⟩ := hv
  simp only [bad_we, decide_eq_false_iff_not, not_lt] at hwe
  simp only [is_point_on_easting_edge, Bool.and_eq_true, Bool.or_eq_true,
    decide_eq_true_eq]
  refine ⟨⟨⟨?_, ?_⟩, hn⟩, hu⟩ <;> rcases he with he | he <;> linarith

/-- A prism vertex lies on a northing-parallel edge whenever the
south ≤ north constraint holds. -/
theorem vertex_on_northing_edge {pt : Point} {pr : Prism}
    (hv : isVertex pt pr = true) (hsn : bad_sn pr = false) :
    is_point_on_northing_edge pt.easting pt.northing pt.upward pr =
      true := by
  simp only [isVertex, Bool.and_eq_true, Bool.or_eq_true,
    decide_eq_true_eq] at hv
  obtain ⟨⟨he, hn⟩, hu⟩ := hv
  simp only [bad_sn, decide_eq_false_iff_not, not_lt] at hsn
  simp only [is_point_on_northing_edge, Bool.and_eq_true, Bool.or_eq_true,
    decide_eq_true_eq]
  refine ⟨⟨⟨he, ?_⟩, ?_⟩, hu⟩ <;> rcases hn with hn | hn <;> linarith

/-- A prism vertex lies on an upward-parallel edge whenever the
bottom ≤ top constraint holds. -/
theorem vertex_on_upward_edge {pt : Point} {pr : Prism}
    (hv : isVertex pt pr = true) (hbt : bad_bt pr = false) :
    is_point_on_upward_edge pt.easting pt.northing pt.upward pr =
      true := by
  simp only [isVertex, Bool.and_eq_true, Bool.or_eq_true,
    decide_eq_true_eq] at hv
  obtain ⟨⟨he, hn⟩, hu⟩ := hv
  simp only [bad_bt, decide_eq_false_iff_not, not_lt] at hbt
  simp only [is_point_on_upward_edge, Bool.and_eq_true, Bool.or_eq_true,
    decide_eq_true_eq]
  refine ⟨⟨⟨he, hn⟩, ?_⟩, ?_⟩ <;> rcases hu with hu | hu <;> linarith

/-- A point strictly inside a prism is on no easting-parallel edge. -/
theorem inside_not_on_easting_edge {pt : Point} {pr : Prism}
    (h : strictlyInside pt pr = true) :
    is_point_on_easting_edge pt.easting pt.northing pt.upward pr =
      false := by
  simp only [strictlyInside, Bool.and_eq_true, decide_eq_true_eq] at h
  obtain ⟨⟨⟨⟨⟨h1, h2⟩, h3⟩, h4⟩, h5⟩, h6⟩ := h
  have hns : pt.northing ≠ pr.south := ne_of_gt h3
  have hnn : pt.northing ≠ pr.north := ne_of_lt h4
  simp [is_point_on_easting_edge, decide_eq_false hns,
    decide_eq_false hnn]

/-- A point strictly inside a prism is on no northing-parallel edge. -/
theorem inside_not_on_northing_edge {pt : Point} {pr : Prism}
    (h : strictlyInside pt pr = true) :
    is_point_on_northing_edge pt.easting pt.northing pt.upward pr =
      false := by
  simp only [strictlyInside, Bool.and_eq_true, decide_eq_true_eq] at h
  obtain ⟨⟨⟨⟨⟨h1, h2⟩, h3⟩, h4⟩, h5⟩, h6⟩ := h
  have hew : pt.easting ≠ pr.west := ne_of_gt h1
  have hee : pt.easting ≠ pr.east := ne_of_lt h2
  simp [is_point_on_northing_edge, decide_eq_false hew,
    decide_eq_false hee]

/-- A point strictly inside a prism is on no upward-parallel edge. -/
theorem inside_not_on_upward_edge {pt : Point} {pr : Prism}
    (h : strictlyInside pt pr = true) :
    is_point_on_upward_edge pt.easting pt.northing pt.upward pr =
      false := by
  simp only [strictlyInside, Bool.and_eq_true, decide_eq_true_eq] at h
  obtain ⟨⟨⟨⟨⟨h1, h2⟩, h3⟩, h4⟩, h5⟩, h6⟩ := h
  have hew : pt.easting ≠ pr.west := ne_of_gt h1
  have hee : pt.easting ≠ pr.east := ne_of_lt h2
  simp [is_point_on_upward_edge, decide_eq_false hew,
    decide_eq_false hee]

/-- The six tensor tags are all registered. -/
theorem tensor_mem_registered {field : String}
    (h : field ∈ tensorFields) : field ∈ registeredFields := by
  fin_cases h <;> decide

/-- For any tensor tag, an observation point at a vertex of a valid
prism of the collection makes the singularity scan return true. -/
theorem scan_true_of_vertex {points : List Point} {prisms : List Prism}
    {field : String} {pt : Point} {pr : Prism}
    (hfield : field ∈ tensorFields) (hpt : pt ∈ points)
    (hpr : pr ∈ prisms) (hv : isVertex pt pr = true)
    (hwe : bad_we pr = false) (hsn : bad_sn pr = false)
    (hbt : bad_bt pr = false) :
    _check_singular_points points prisms field = true := by
  have hee := vertex_on_easting_edge hv hwe
  have hne := vertex_on_northing_edge hv hsn
  have hue := vertex_on_upward_edge hv hbt
  fin_cases hfield <;>
    simp only [_check_singular_points, _any_singular_point_diagonal,
      _any_singular_point_non_diagonal, List.any_eq_true] <;>
    simp <;>
    exact ⟨pt, hpt, pr, hpr, by simp [hee, hne, hue]⟩

/-- The singularity scan never fires on a point strictly inside a
prism, whatever the field tag. -/
theorem scan_false_of_inside {pt : Point} {pr : Prism}
    (h : strictlyInside pt pr = true) (field : String) :
    _check_singular_points [pt] [pr] field = false := by
  have h1 := inside_not_on_easting_edge h
  have h2 := inside_not_on_northing_edge h
  have h3 := inside_not_on_upward_edge h
  unfold _check_singular_points
  split_ifs <;>
    simp [_any_singular_point_diagonal, _any_singular_point_non_diagonal,
      h1, h2, h3]

/-- The length of the raw accumulation is the number of points. -/
theorem rawAccum_length (ks : KernelSet) (points : List Point)
    (prisms : List Prism) (density : List ℚ) (field : String)
    (par : Bool) (kernel : Kernel) (hk : FIELDS ks field = some kernel) :
    (rawAccum ks points prisms density field par).length =
      points.length := by
  cases par <;>
    simp [rawAccum, hk, jit_serial_eq_parallel,
      jit_prism_gravity_parallel]

/-- Post-processing does not change the length of the result array. -/
theorem postprocess_length (field : String) (l : List ℚ) :
    (postprocess field l).length = l.length := by
  simp only [postprocess]
  split_ifs <;> simp

/-- Shared form of C8/C10: with checks on, a tensor tag and a point at a
vertex of a valid prism, `prism_gravity` completes with the warning. -/
theorem prism_gravity_warns_of_vertex (ks : KernelSet)
    (points : List Point) (prisms : List Prism) (density : List ℚ)
    (field : String) (par : Bool) (pt : Point) (pr : Prism)
    (hfield : field ∈ tensorFields)
    (hlen : density.length = prisms.length)
    (hgeo : _check_prisms prisms = none)
    (hpt : pt ∈ points) (hpr : pr ∈ prisms)
    (hv : isVertex pt pr = true) :
    prism_gravity ks points prisms density field par false =
      Except.ok ⟨true,
        postprocess field (rawAccum ks points prisms density field par)⟩
    := by
  obtain ⟨kernel, hk⟩ := FIELDS_isSome_of_mem ks
    (tensor_mem_registered hfield)
  obtain ⟨hwe3, hsn3, hbt3⟩ := (check_prisms_eq_none_iff prisms).mp hgeo
  have hwe : bad_we pr = false := by
    simpa using List.filter_eq_nil_iff.mp hwe3 pr hpr
  have hsn : bad_sn pr = false := by
    simpa using List.filter_eq_nil_iff.mp hsn3 pr hpr
  have hbt : bad_bt pr = false := by
    simpa using List.filter_eq_nil_iff.mp hbt3 pr hpr
  have hscan := scan_true_of_vertex hfield hpt hpr hv hwe hsn hbt
  rw [prism_gravity_ok_form ks points prisms density field par false
    kernel hk hlen hgeo]
  simp [hscan]

/-- C8: when checks are not skipped, (i) for every tensor field tag an
observation point at a vertex of any prism of a valid collection makes
`prism_gravity` emit the advisory warning (not an exception) while the
computation completes with one value per point; (ii) a point strictly
inside a prism's volume never triggers the scan, for any field tag;
(iii) for `potential`, `g_e`, `g_n` and `g_z` the scan never fires, so
no such warning is ever emitted. -/
theorem singular_point_warning_contract :
    (∀ (ks : KernelSet) (points : List Point) (prisms : List Prism)
        (density : List ℚ) (field : String) (par : Bool) (pt : Point)
        (pr : Prism),
      field ∈ tensorFields →
      density.length = prisms.length →
      _check_prisms prisms = none →
      pt ∈ points → pr ∈ prisms → isVertex pt pr = true →
      ∃ r : List ℚ,
        prism_gravity ks points prisms density field par false =
          Except.ok ⟨true, r⟩ ∧ r.length = points.length) ∧
    (∀ (pt : Point) (pr : Prism) (field : String),
      strictlyInside pt pr = true →
      _check_singular_points [pt] [pr] field = false) ∧
    (∀ (points : List Point) (prisms : List Prism) (field : String),
      field ∈ ["potential", "g_e", "g_n", "g_z"] →
      _check_singular_points points prisms field = false) := by
  refine ⟨?_, ?_, ?_⟩
  · intro ks points prisms density field par pt pr hfield hlen hgeo hpt
      hpr hv
    obtain ⟨kernel, hk⟩ := FIELDS_isSome_of_mem ks
      (tensor_mem_registered hfield)
    refine ⟨postprocess field
      (rawAccum ks points prisms density field par), ?_, ?_⟩
    · exact prism_gravity_warns_of_vertex ks points prisms density field
        par pt pr hfield hlen hgeo hpt hpr hv
    · rw [postprocess_length,
        rawAccum_length ks points prisms density field par kernel hk]
  · intro pt pr field h
    exact scan_false_of_inside h field
  · intro points prisms field h
    fin_cases h <;> rfl

/-- Witness for C8: a vertex point with `g_zz` warns and completes; an
interior point does not fire the scan; `g_z` never scans. -/
theorem singular_point_warning_contract_witness :
    (∃ r : List ℚ,
      prism_gravity trivKernels [⟨0, 0, 0⟩] [⟨0, 2, 0, 2, 0, 2⟩] [3]
          "g_zz" true false = Except.ok ⟨true, r⟩ ∧ r.length = 1) ∧
    _check_singular_points [⟨1, 1, 1⟩] [⟨0, 2, 0, 2, 0, 2⟩] "g_zz" =
      false ∧
    _check_singular_points [⟨0, 0, 0⟩] [⟨0, 2, 0, 2, 0, 2⟩] "g_z" =
      false :=
  ⟨singular_point_warning_contract.1 trivKernels [⟨0, 0, 0⟩]
      [⟨0, 2, 0, 2, 0, 2⟩] [3] "g_zz" true ⟨0, 0, 0⟩ ⟨0, 2, 0, 2, 0, 2⟩
      (by decide) rfl (by decide) (by decide) (by decide) (by decide),
   singular_point_warning_contract.2.1 ⟨1, 1, 1⟩ ⟨0, 2, 0, 2, 0, 2⟩
     "g_zz" (by decide),
   singular_point_warning_contract.2.2 [⟨0, 0, 0⟩] [⟨0, 2, 0, 2, 0, 2⟩]
     "g_z" (by decide)⟩

/-- C10: the singularity scan runs before null-prism filtering: with
checks enabled and a tensor tag, a point at a vertex of a prism that is
itself null (here: paired with zero density or zero volume, while the
pair occurs in the input) still produces the warning, even though that
(prism, density) pair is removed by the filter and contributes nothing
to the accumulation. -/
theorem singular_scan_before_null_filter (ks : KernelSet)
    (points : List Point) (prisms : List Prism) (density : List ℚ)
    (field : String) (par : Bool) (pt : Point) (pr : Prism) (d : ℚ)
    (hfield : field ∈ tensorFields)
    (hlen : density.length = prisms.length)
    (hgeo : _check_prisms prisms = none)
    (hmem : (pr, d) ∈ prisms.zip density)
    (hpt : pt ∈ points) (hv : isVertex pt pr = true)
    (hnull : is_null_prism pr d = true) :
    ∃ r, prism_gravity ks points prisms density field par false =
        Except.ok ⟨true, r⟩ ∧
      (pr, d) ∉ (_discard_null_prisms prisms density).1.zip
        (_discard_null_prisms prisms density).2 := by
  have hpr : pr ∈ prisms := (List.of_mem_zip hmem).1
  refine ⟨postprocess field (rawAccum ks points prisms density field par),
    prism_gravity_warns_of_vertex ks points prisms density field par pt
      pr hfield hlen hgeo hpt hpr hv, ?_⟩
  intro hin
  simp only [_discard_null_prisms] at hin
  rw [zip_map_fst_snd] at hin
  have := (List.mem_filter.mp hin).2
  simp [hnull] at this

/-- Witness for C10: a vertex of a zero-density prism still warns. -/
theorem singular_scan_before_null_filter_witness :
    ∃ r, prism_gravity trivKernels [⟨0, 0, 0⟩] [⟨0, 2, 0, 2, 0, 2⟩] [0]
        "g_en" true false = Except.ok ⟨true, r⟩ ∧
      ((⟨0, 2, 0, 2, 0, 2⟩ : Prism), (0 : ℚ)) ∉
        (_discard_null_prisms [⟨0, 2, 0, 2, 0, 2⟩] [0]).1.zip
          (_discard_null_prisms [⟨0, 2, 0, 2, 0, 2⟩] [0]).2 :=
  singular_scan_before_null_filter trivKernels [⟨0, 0, 0⟩]
    [⟨0, 2, 0, 2, 0, 2⟩] [0] "g_en" true ⟨0, 0, 0⟩ ⟨0, 2, 0, 2, 0, 2⟩ 0
    (by decide) rfl (by decide) (by decide) (by decide) (by decide)
    (by decide)

end Harmonica
